import Mathlib

/-!
Shallow embedding of the YOLO inference backend's LRU model cache
(`src/utils/tools_lru.py`) and model registry (`src/utils/dataModel.py`,
`src/utils/tools.py`).

Modelling conventions:
* Process resident memory (`psutil` readings, Python floats) is modelled as a
  stream `mem : Nat → ℚ` of successive samples; a sample clock is threaded
  explicitly through every operation that calls `get_current_memory_mb`.
* The `YOLO(path)` constructor either succeeds or raises; this is modelled by
  an oracle `loadOk : Nat → Bool` indexed by model id.  The loaded engine
  object itself is opaque and only its identity matters, so the `sessions`
  OrderedDict is modelled by its key list in recency order
  (head = least recently used, tail = most recently used).
* Python dicts keyed by strings or ints are modelled as insertion-ordered
  association lists.
-/

/-- Association-list lookup (first binding wins), modelling `dict.get`. -/
def alistLookup [BEq α] (l : List (α × β)) (k : α) : Option β :=
  match l with
  | [] => none
  | (a, b) :: rest => if a == k then some b else alistLookup rest k

/-- `d[k] = v` on a Python dict: replace in place if present, else append. -/
def alistSet [BEq α] (l : List (α × β)) (k : α) (v : β) : List (α × β) :=
  match l with
  | [] => [(k, v)]
  | (a, b) :: rest => if a == k then (k, v) :: rest else (a, b) :: alistSet rest k v

/-- `del d[k]` on a Python dict (no-op when the key is absent, matching the
`if model_id in self.label_names` guard at the only deletion site). -/
def alistErase [BEq α] (l : List (α × β)) (k : α) : List (α × β) :=
  match l with
  | [] => []
  | (a, b) :: rest => if a == k then rest else (a, b) :: alistErase rest k

/-- Key list of an association list. -/
def alistKeys (l : List (α × β)) : List α := l.map Prod.fst

/-- `OrderedDict.move_to_end(k)`: remove the key and re-append it at the
most-recently-used end.  Only ever called under an `if k in dict` guard. -/
def moveToEnd (k : Nat) (l : List Nat) : List Nat := l.erase k ++ [k]

/-- `metadata` field as produced by `ModelInfo.from_dict`: when the YAML has a
`metadata` key the raw dict is kept (`some d`, truthy iff nonempty); when the
key is absent a default `Metadata` dataclass instance is built, which is
always truthy (`none`). -/
def metadataTruthy : Option (List (String × String)) → Bool
  | none => true
  | some d => !d.isEmpty

/-- `ModelInfo` (src/utils/dataModel.py): descriptor record produced by
`from_dict`, with string fields defaulting to `""` for missing YAML keys. -/
structure ModelInfo where
  model_name : String
  model_family : String
  version : String
  model_path : String
  task : String
  input_size : String
  description : String
  metadata : Option (List (String × String))
  names : List (Nat × String)
  deriving Repr, DecidableEq

/-- `ModelInfo.is_complete`: Python `all(...)` over the fields, i.e. every
string field is nonempty, the metadata value is truthy, and `names` is a
nonempty dict. -/
def ModelInfo.is_complete (m : ModelInfo) : Bool :=
  m.model_name != "" && m.model_family != "" && m.version != "" &&
  m.model_path != "" && m.task != "" && m.input_size != "" &&
  m.description != "" && metadataTruthy m.metadata && !m.names.isEmpty

/-- `ModelInfo.validate_task`: the task must be one of the three recognized
kinds, otherwise a `ValueError` is raised. -/
def ModelInfo.validate_task (m : ModelInfo) : Bool :=
  m.task == "classification" || m.task == "detection" || m.task == "segmentation"

/-- `Models` (src/utils/dataModel.py): dict from stringified sequential ids to
descriptors. -/
structure Models where
  models : List (String × ModelInfo)
  deriving Repr, DecidableEq

/-- State of `InferenceSessionsWithLRU` (src/utils/tools_lru.py).  `sessions`
is the OrderedDict key list in recency order (head = LRU); `label_names` maps
ids to the descriptor's `names` dict. -/
structure LRUState where
  sessions : List Nat
  label_names : List (Nat × List (Nat × String))
  models : Option Models
  max_memory_mb : ℚ
  memory_check_interval : Nat
  request_count : Nat
  deriving Repr, DecidableEq

/-- `InferenceSessionsWithLRU.__init__`. -/
def initLRU (max_memory_mb : ℚ) (memory_check_interval : Nat) : LRUState :=
  { sessions := []
    label_names := []
    models := none
    max_memory_mb := max_memory_mb
    memory_check_interval := memory_check_interval
    request_count := 0 }

/-- The `while len(self.sessions) > 0 and current_memory > self.max_memory_mb * 0.9`
loop inside `check_memory_and_evict`: pop the least-recently-used key, delete
its label entry, re-sample memory, repeat.  Returns the surviving sessions,
labels, the final `current_memory` local, and the advanced sample clock. -/
def evictLoop (mem : Nat → ℚ) (maxMB : ℚ) :
    List Nat → List (Nat × List (Nat × String)) → ℚ → Nat →
    List Nat × List (Nat × List (Nat × String)) × ℚ × Nat
  | [], labels, current, clock => ([], labels, current, clock)
  | lru :: rest, labels, current, clock =>
    if maxMB * (9/10) < current then
      let labels := alistErase labels lru
      let current := mem clock
      evictLoop mem maxMB rest labels current (clock + 1)
    else (lru :: rest, labels, current, clock)

/-- `InferenceSessionsWithLRU.check_memory_and_evict`: sample memory; only when
the sample strictly exceeds `max_memory_mb` run the eviction loop.  The final
value of the `current_memory` local is returned alongside the state and clock. -/
def check_memory_and_evict (mem : Nat → ℚ) (s : LRUState) (clock : Nat) :
    LRUState × Nat × ℚ :=
  let current := mem clock
  let clock := clock + 1
  if s.max_memory_mb < current then
    let r := evictLoop mem s.max_memory_mb s.sessions s.label_names current clock
    ({ s with sessions := r.1, label_names := r.2.1 }, r.2.2.2, r.2.2.1)
  else
    (s, clock, current)

/-- Failure modes of `add_session_label`: `unknownId` is the `ValueError`
raised when the id has no descriptor; `loadFailure` is the exception re-raised
when the `YOLO(...)` constructor fails. -/
inductive CacheErr where
  | unknownId
  | loadFailure
  deriving Repr, DecidableEq

/-- `InferenceSessionsWithLRU.add_session_label`: look up the descriptor under
the stringified id, instantiate the engine, then insert the session (append if
absent, value-update keeping order if present — OrderedDict assignment) and
set the label entry.  On failure nothing is mutated. -/
def add_session_label (loadOk : Nat → Bool) (model_id : Nat) (m : Models)
    (s : LRUState) : Except CacheErr LRUState :=
  match alistLookup m.models (toString model_id) with
  | none => .error .unknownId
  | some info =>
    if loadOk model_id then
      .ok { s with
            sessions :=
              if s.sessions.contains model_id then s.sessions
              else s.sessions ++ [model_id]
            label_names := alistSet s.label_names model_id info.names }
    else .error .loadFailure

/-- The periodic check at the top of `get_session` (`if self.request_count %
self.memory_check_interval == 0: self.check_memory_and_evict()`), run on the
already-incremented counter. -/
def periodicCheck (mem : Nat → ℚ) (s : LRUState) (clock : Nat) : LRUState × Nat :=
  if s.request_count % s.memory_check_interval == 0 then
    let r := check_memory_and_evict mem s clock
    (r.1, r.2.1)
  else (s, clock)

/-- The pre-load check on the miss path of `get_session`: sample memory and,
when the sample strictly exceeds `max_memory_mb * 0.8` (the high watermark),
run `check_memory_and_evict`. -/
def watermarkCheck (mem : Nat → ℚ) (s : LRUState) (clock : Nat) : LRUState × Nat :=
  let current := mem clock
  let clock := clock + 1
  if s.max_memory_mb * (8/10) < current then
    let r := check_memory_and_evict mem s clock
    (r.1, r.2.1)
  else (s, clock)

/-- `InferenceSessionsWithLRU.get_session`: bump the request counter, run the
periodic eviction check, serve a hit by moving the key to the MRU end,
otherwise run the pre-load watermark eviction check and lazy-load via
`add_session_label` (exceptions are caught and become `none`). -/
def get_session (mem : Nat → ℚ) (loadOk : Nat → Bool) (model_id : Nat)
    (s : LRUState) (clock : Nat) : Option Nat × LRUState × Nat :=
  let s := { s with request_count := s.request_count + 1 }
  let p := periodicCheck mem s clock
  if p.1.sessions.contains model_id then
    (some model_id, { p.1 with sessions := moveToEnd model_id p.1.sessions }, p.2)
  else
    let w := watermarkCheck mem p.1 p.2
    match w.1.models with
    | some m =>
      match add_session_label loadOk model_id m w.1 with
      | .ok s' =>
        ((if s'.sessions.contains model_id then some model_id else none), s', w.2)
      | .error _ => (none, w.1, w.2)
    | none => (none, w.1, w.2)

/-- `InferenceSessionsWithLRU.get_label_names`: serve from `label_names`
(refreshing recency when the session is loaded), else lazy-load via
`add_session_label`, else `none`.  No memory sampling, no request counting. -/
def get_label_names (loadOk : Nat → Bool) (model_id : Nat) (s : LRUState) :
    Option (List (Nat × String)) × LRUState :=
  match alistLookup s.label_names model_id with
  | some labels =>
    if s.sessions.contains model_id then
      (some labels, { s with sessions := moveToEnd model_id s.sessions })
    else (some labels, s)
  | none =>
    match s.models with
    | some m =>
      match add_session_label loadOk model_id m s with
      | .ok s' => (alistLookup s'.label_names model_id, s')
      | .error _ => (none, s)
    | none => (none, s)

/-- `InferenceSessionsWithLRU.initialize_sessions`: stores the models
reference; nothing is preloaded. -/
def initialize_sessions (m : Models) (s : LRUState) : LRUState :=
  { s with models := some m }

/-- Return value of `get_cache_stats`. -/
structure CacheStats where
  loaded_models : List Nat
  num_loaded_models : Nat
  current_memory_mb : ℚ
  max_memory_mb : ℚ
  memory_usage_percent : ℚ
  request_count : Nat
  memory_check_interval : Nat
  deriving Repr, DecidableEq

/-- `InferenceSessionsWithLRU.get_cache_stats`: builds the stats dict.  It
calls `get_current_memory_mb` twice (once for `current_memory_mb`, once inside
the usage percentage), consuming two samples, and performs no assignment to
`self`, so the state comes back unchanged. -/
def get_cache_stats (mem : Nat → ℚ) (s : LRUState) (clock : Nat) :
    CacheStats × LRUState × Nat :=
  ({ loaded_models := s.sessions
     num_loaded_models := s.sessions.length
     current_memory_mb := mem clock
     max_memory_mb := s.max_memory_mb
     memory_usage_percent := mem (clock + 1) / s.max_memory_mb * 100
     request_count := s.request_count
     memory_check_interval := s.memory_check_interval },
   s, clock + 2)

/-! ## Model registry (src/utils/dataModel.py `Models.load_models_info`,
src/utils/tools.py `load_models`)

The filesystem is modelled by the enumeration `os.listdir` returns: a list of
directory entries in raw filesystem order, each carrying the answers the code
asks of the filesystem (`os.path.isdir`, existence of `labels.yaml`, existence
of the resolved artifact path) together with the `from_dict` parse of the
YAML.  An unreadable base path is the `.error` case of the listing. -/

/-- `os.path.join` as used on the descriptor directory and artifact path. -/
def pathJoin (a b : String) : String := a ++ "/" ++ b

/-- One entry of `os.listdir(models_base_path)` with the filesystem facts the
loader queries about it. -/
structure DirEntry where
  name : String
  isDir : Bool
  hasLabelsYaml : Bool
  info : ModelInfo
  modelPathExists : Bool
  deriving Repr, DecidableEq

/-- Failure modes of `ModelInfo.load_model_info_from_yaml`. -/
inductive RegErr where
  | incomplete
  | malformed
  | pathInvalid
  deriving Repr, DecidableEq

/-- `ModelInfo.load_model_info_from_yaml`: resolve the artifact path relative
to the descriptor's own directory, then check completeness, task validity, and
artifact-path existence, in that order. -/
def load_model_info_from_yaml (base : String) (e : DirEntry) :
    Except RegErr ModelInfo :=
  let info := { e.info with
                model_path := pathJoin (pathJoin base e.name) e.info.model_path }
  if !info.is_complete then .error .incomplete
  else if !info.validate_task then .error .malformed
  else if !e.modelPathExists then .error .pathInvalid
  else .ok info

/-- The `for model_folder in os.listdir(...)` loop of `Models.load_models_info`
with its sequential-id counter `i` and the accumulated `self.models` dict:
non-directories and directories without `labels.yaml` are passed over, a
descriptor that raises is logged and skipped without consuming an id, and a
valid descriptor is stored under `str(i)`. -/
def loadModelsInfoAux (base : String) :
    List DirEntry → Nat → List (String × ModelInfo) → List (String × ModelInfo)
  | [], _, acc => acc
  | e :: rest, i, acc =>
    if e.isDir && e.hasLabelsYaml then
      match load_model_info_from_yaml base e with
      | .ok info => loadModelsInfoAux base rest (i + 1) (acc ++ [(toString i, info)])
      | .error _ => loadModelsInfoAux base rest i acc
    else loadModelsInfoAux base rest i acc

/-- `Models.load_models_info` run on a fresh `Models(models={})`, as
`load_models` does. -/
def load_models_info (base : String) (listing : List DirEntry) :
    List (String × ModelInfo) :=
  loadModelsInfoAux base listing 0 []

/-- `load_models` (src/utils/tools.py): an unreadable base path makes
`os.listdir` raise, which is caught and re-raised, failing the whole call;
otherwise the scan's partial-success result is returned. -/
def load_models (base : String) (listing : Except Unit (List DirEntry)) :
    Except Unit Models :=
  match listing with
  | .error _ => .error ()
  | .ok l => .ok ⟨load_models_info base l⟩

/-- The descriptors that survive validation, in enumeration order. -/
def validInfos (base : String) (listing : List DirEntry) : List ModelInfo :=
  listing.filterMap fun e =>
    if e.isDir && e.hasLabelsYaml then (load_model_info_from_yaml base e).toOption
    else none

/-- Sequential id assignment starting at `start`, keys stringified. -/
def enumAssign (start : Nat) : List ModelInfo → List (String × ModelInfo)
  | [] => []
  | x :: xs => (toString start, x) :: enumAssign (start + 1) xs

/-- Lexicographic order on character lists (by code point). -/
def charListLe : List Char → List Char → Bool
  | [], _ => true
  | _ :: _, [] => false
  | a :: as, b :: bs =>
    if a.toNat < b.toNat then true
    else if b.toNat < a.toNat then false
    else charListLe as bs

/-- Lexicographic order on strings. -/
def strLe (a b : String) : Bool := charListLe a.data b.data

/-- Insertion of a directory entry into a name-sorted list
(lexicographic order on the subdirectory name). -/
def insertByName (e : DirEntry) : List DirEntry → List DirEntry
  | [] => [e]
  | x :: xs => if strLe e.name x.name then e :: x :: xs else x :: insertByName e xs

/-- Lexicographic sort of a directory listing by subdirectory name. -/
def sortByName (l : List DirEntry) : List DirEntry := l.foldr insertByName []

/-- Modelled from the spec (§4.1): the registry load the specification
describes, which assigns ids in lexicographically sorted subdirectory-name
order rather than raw filesystem enumeration order.  Used only to compare
the specified behaviour with `load_models_info`. -/
def specSortedLoadModelsInfo (base : String) (listing : List DirEntry) :
    List (String × ModelInfo) :=
  load_models_info base (sortByName listing)


/-! ## Two-thread interleaving model of concurrent `get_session` misses

`get_session` performs no synchronization.  On the miss path (memory far below
every watermark, periodic check not due) a thread executes two separately
observable steps: (a) the `model_id in self.sessions` membership test, and
(b) `add_session_label`, whose `YOLO(...)` call blocks for a long time before
`self.sessions[model_id] = session` runs.  Python's threading may interleave
other threads between (a) and (b).  Each `YOLO(...)` call is one engine
instantiation; `loads` counts them. -/

/-- Program counter of one thread executing the `get_session` miss path. -/
inductive ThreadPhase where
  | start
  | willLoad
  | done
  deriving Repr, DecidableEq

/-- Shared cache structure plus the two thread program counters and the
total number of engine instantiations performed. -/
structure RaceState where
  sessions : List Nat
  loads : Nat
  t1 : ThreadPhase
  t2 : ThreadPhase
  deriving Repr, DecidableEq

/-- One atomic step of a thread calling `get_session model_id`:
from `start`, the membership test — a hit refreshes recency and finishes, a
miss proceeds to the load; from `willLoad`, the `YOLO` instantiation followed
by the OrderedDict insertion (append when absent, value update when present). -/
def threadStep (model_id : Nat) (sessions : List Nat) (loads : Nat) :
    ThreadPhase → ThreadPhase × List Nat × Nat
  | .start =>
    if sessions.contains model_id then (.done, moveToEnd model_id sessions, loads)
    else (.willLoad, sessions, loads)
  | .willLoad =>
    (.done,
     (if sessions.contains model_id then sessions else sessions ++ [model_id]),
     loads + 1)
  | .done => (.done, sessions, loads)

/-- Scheduler step: `true` runs thread 1, `false` runs thread 2. -/
def raceStep (model_id : Nat) (s : RaceState) (runT1 : Bool) : RaceState :=
  if runT1 then
    let r := threadStep model_id s.sessions s.loads s.t1
    { s with t1 := r.1, sessions := r.2.1, loads := r.2.2 }
  else
    let r := threadStep model_id s.sessions s.loads s.t2
    { s with t2 := r.1, sessions := r.2.1, loads := r.2.2 }

/-- Run a whole schedule. -/
def runSchedule (model_id : Nat) (sched : List Bool) (s : RaceState) : RaceState :=
  sched.foldl (raceStep model_id) s

/-! ## Invariant predicates and concrete fixtures -/

/-- Every id with a loaded session has an entry in the label-names map. -/
def sessionsHaveLabels (s : LRUState) : Bool :=
  s.sessions.all fun id => (alistLookup s.label_names id).isSome

/-- A fully valid descriptor (complete, recognized task, nonempty labels). -/
def infoA : ModelInfo :=
  { model_name := "modelA", model_family := "YOLOv8", version := "1.0.0"
    model_path := "best.onnx", task := "detection", input_size := "640x640"
    description := "descA", metadata := none, names := [(0, "fire")] }

/-- A second valid descriptor. -/
def infoB : ModelInfo := { infoA with model_name := "modelB" }

/-- A third valid descriptor. -/
def infoC : ModelInfo := { infoA with model_name := "modelC" }

/-- An incomplete descriptor: the required `model_name` field is missing
(`from_dict` default `""`), so `is_complete` fails. -/
def infoIncomplete : ModelInfo := { infoA with model_name := "" }

/-- Valid model subdirectory named "a". -/
def entryA : DirEntry :=
  { name := "a", isDir := true, hasLabelsYaml := true, info := infoA
    modelPathExists := true }

/-- Valid model subdirectory named "b". -/
def entryB : DirEntry := { entryA with name := "b", info := infoB }

/-- Valid model subdirectory named "c". -/
def entryC : DirEntry := { entryA with name := "c", info := infoC }

/-- Subdirectory named "b" holding an incomplete descriptor. -/
def entryBadB : DirEntry := { entryA with name := "b", info := infoIncomplete }

/-- Cache holding one loaded entry (id 7) over a 100 MB budget, as reached
after a successful `get_session(7)` with low memory. -/
def oneEntryState : LRUState :=
  { sessions := [7], label_names := [(7, [(0, "fire")])]
    models := none, max_memory_mb := 100, memory_check_interval := 10
    request_count := 1 }

/-- Cache holding one loaded entry (id 0) over a 500 MB budget whose handle a
consumer is still using: the code keeps no outstanding-use counter, so nothing
in `LRUState` records the outstanding use. -/
def inUseState : LRUState :=
  { sessions := [0], label_names := [(0, [(0, "fire")])]
    models := none, max_memory_mb := 500, memory_check_interval := 10
    request_count := 1 }

/-- A two-descriptor registry: ids 0 and 1 both resolve. -/
def twoModels : Models := ⟨[("0", infoA), ("1", infoB)]⟩

/-- Run a sequence of `get_session` calls, keeping the state and clock. -/
def getSeq (mem : Nat → ℚ) (loadOk : Nat → Bool) :
    List Nat → LRUState → Nat → LRUState × Nat
  | [], s, clock => (s, clock)
  | id :: ids, s, clock =>
    let r := get_session mem loadOk id s clock
    getSeq mem loadOk ids r.2.1 r.2.2

/-! ## Theorems: model registry -/

theorem except_toOption_ok (a : α) : (Except.ok a : Except ε α).toOption = some a := rfl

theorem except_toOption_error (e : ε) : (Except.error e : Except ε α).toOption = (none : Option α) := rfl

/-- The registry scan equals sequential id assignment over the validated
descriptors taken in raw enumeration order. -/
theorem loadModelsInfoAux_spec (base : String) :
    ∀ (l : List DirEntry) (i : Nat) (acc : List (String × ModelInfo)),
      loadModelsInfoAux base l i acc = acc ++ enumAssign i (validInfos base l) := by
  intro l
  induction l with
  | nil => intro i acc; simp [loadModelsInfoAux, validInfos, enumAssign]
  | cons e rest ih =>
    intro i acc
    by_cases h : (e.isDir && e.hasLabelsYaml) = true
    · rw [Bool.and_eq_true] at h
      cases hl : load_model_info_from_yaml base e with
      | ok info =>
        simp [loadModelsInfoAux, h.1, h.2, hl, validInfos, List.filterMap_cons,
              enumAssign, ih, except_toOption_ok, List.append_assoc,
              List.cons_append, List.singleton_append]
      | error err =>
        simp [loadModelsInfoAux, h.1, h.2, hl, validInfos, List.filterMap_cons,
              ih, except_toOption_error]
    · rw [Bool.and_eq_true] at h
      simp [loadModelsInfoAux, h, validInfos, List.filterMap_cons, ih]

/-- **C4** (amended): `Models.load_models_info` assigns sequential ids to the
valid descriptors in raw `os.listdir` enumeration order — the id stored with a
descriptor is its position among the valid descriptors of the unsorted
listing, not the sorted position of its subdirectory name. -/
theorem registry_ids_follow_enumeration_order (base : String)
    (listing : List DirEntry) :
    load_models_info base listing = enumAssign 0 (validInfos base listing) := by
  simpa [load_models_info] using loadModelsInfoAux_spec base listing 0 []

/-- **C4** counterexample: with the listing enumerating subdirectory "b"
before "a" (both valid), the code assigns id 0 to the descriptor from "b",
while assignment by sorted subdirectory-name position (the spec's sorted
loader) gives id 0 to the descriptor from "a". -/
theorem registry_ids_sorted_order_counterexample :
    (alistLookup (load_models_info "base" [entryB, entryA]) "0").map
      ModelInfo.model_name = some "modelB" ∧
    (alistLookup (specSortedLoadModelsInfo "base" [entryB, entryA]) "0").map
      ModelInfo.model_name = some "modelA" ∧
    load_models_info "base" [entryB, entryA] ≠
      specSortedLoadModelsInfo "base" [entryB, entryA] := by decide

/-- **C7**: a readable base directory always yields a successful load holding
the surviving valid descriptors (partial-success policy); an unreadable base
path fails the whole `load_models` call; and in the concrete 3-subdirectory
scenario with one incomplete descriptor the catalog holds exactly 2
descriptors. -/
theorem registry_partial_success :
    (∀ (base : String) (l : List DirEntry),
      load_models base (.ok l) = .ok ⟨load_models_info base l⟩) ∧
    (∀ base : String, load_models base (.error ()) = .error ()) ∧
    (load_models_info "base" [entryA, entryBadB, entryC]).length = 2 ∧
    (load_models_info "base" [entryA, entryBadB, entryC]).map Prod.fst = ["0", "1"] := by
  refine ⟨fun base l => rfl, fun base => rfl, ?_, ?_⟩ <;> decide

/-! ## Theorems: association-list and eviction-loop helpers -/

theorem alistLookup_erase_ne [BEq α] [LawfulBEq α] (l : List (α × β)) {k k' : α}
    (h : k ≠ k') : alistLookup (alistErase l k') k = alistLookup l k := by
  induction l with
  | nil => rfl
  | cons p rest ih =>
    obtain ⟨a, b⟩ := p
    by_cases ha : a = k'
    · subst ha
      have h1 : (a == k) = false := beq_eq_false_iff_ne.mpr fun hh => h (hh ▸ rfl)
      simp [alistErase, alistLookup, h1]
    · have h2 : (a == k') = false := beq_eq_false_iff_ne.mpr ha
      simp [alistErase, h2, alistLookup, ih]

theorem alistLookup_erase_none [BEq α] [LawfulBEq α] (l : List (α × β)) (k k' : α)
    (h : alistLookup l k = none) : alistLookup (alistErase l k') k = none := by
  induction l with
  | nil => rfl
  | cons p rest ih =>
    obtain ⟨a, b⟩ := p
    by_cases hak : (a == k) = true
    · simp [alistLookup, hak] at h
    · by_cases hak' : (a == k') = true
      · simp only [alistErase, hak', if_true]
        simp only [alistLookup, hak, if_false] at h
        exact h
      · simp only [alistLookup, hak, if_false] at h
        simp only [alistErase, hak', if_false, alistLookup, hak]
        exact ih h

theorem alistLookup_set_self [BEq α] [LawfulBEq α] (l : List (α × β)) (k : α) (v : β) :
    alistLookup (alistSet l k v) k = some v := by
  induction l with
  | nil => simp [alistSet, alistLookup]
  | cons p rest ih =>
    obtain ⟨a, b⟩ := p
    by_cases hak : (a == k) = true
    · simp [alistSet, hak, alistLookup]
    · simp [alistSet, hak, alistLookup, ih]

theorem alistLookup_set_ne [BEq α] [LawfulBEq α] (l : List (α × β)) {k k' : α}
    (v : β) (h : k ≠ k') : alistLookup (alistSet l k' v) k = alistLookup l k := by
  induction l with
  | nil =>
    have h1 : (k' == k) = false := beq_eq_false_iff_ne.mpr fun hh => h (hh ▸ rfl)
    simp [alistSet, alistLookup, h1]
  | cons p rest ih =>
    obtain ⟨a, b⟩ := p
    by_cases hak' : (a == k') = true
    · have ha : a = k' := eq_of_beq hak'
      subst ha
      have h1 : (a == k) = false := beq_eq_false_iff_ne.mpr fun hh => h (hh ▸ rfl)
      simp [alistSet, alistLookup, h1]
    · simp [alistSet, hak', alistLookup, ih]

/-- The eviction loop ends with the cache empty or the last sample at or
below `max * 0.9`. -/
theorem evictLoop_low_or_empty (mem : Nat → ℚ) (maxMB : ℚ) :
    ∀ (sess : List Nat) (labels : List (Nat × List (Nat × String)))
      (current : ℚ) (clock : Nat),
      (evictLoop mem maxMB sess labels current clock).1 = [] ∨
      (evictLoop mem maxMB sess labels current clock).2.2.1 ≤ maxMB * (9/10) := by
  intro sess
  induction sess with
  | nil => intro labels current clock; left; rfl
  | cons lru rest ih =>
    intro labels current clock
    by_cases h : maxMB * (9/10) < current
    · simpa [evictLoop, h] using ih (alistErase labels lru) (mem clock) (clock + 1)
    · right
      simp only [evictLoop, h, if_false]
      exact not_lt.mp h

/-- The surviving sessions of an eviction loop are a suffix of the input. -/
theorem evictLoop_suffix (mem : Nat → ℚ) (maxMB : ℚ) :
    ∀ (sess : List Nat) (labels : List (Nat × List (Nat × String)))
      (current : ℚ) (clock : Nat),
      (evictLoop mem maxMB sess labels current clock).1 <:+ sess := by
  intro sess
  induction sess with
  | nil => intro labels current clock; exact List.suffix_refl []
  | cons lru rest ih =>
    intro labels current clock
    by_cases h : maxMB * (9/10) < current
    · simp only [evictLoop, h, if_true]
      exact (ih (alistErase labels lru) (mem clock) (clock + 1)).trans
        (List.suffix_cons lru rest)
    · simp only [evictLoop, h, if_false]
      exact List.suffix_refl _

/-- The eviction loop never invents label entries: a key absent from the
label map stays absent. -/
theorem evictLoop_labels_none (mem : Nat → ℚ) (maxMB : ℚ) (id : Nat) :
    ∀ (sess : List Nat) (labels : List (Nat × List (Nat × String)))
      (current : ℚ) (clock : Nat),
      alistLookup labels id = none →
      alistLookup (evictLoop mem maxMB sess labels current clock).2.1 id = none := by
  intro sess
  induction sess with
  | nil => intro labels current clock h; exact h
  | cons lru rest ih =>
    intro labels current clock h
    by_cases hc : maxMB * (9/10) < current
    · simp only [evictLoop, hc, if_true]
      exact ih _ (mem clock) (clock + 1) (alistLookup_erase_none labels id lru h)
    · simp only [evictLoop, hc, if_false]
      exact h

/-- The eviction loop keeps every surviving session's label entry, provided
the input session keys are distinct (as OrderedDict keys are). -/
theorem evictLoop_inv (mem : Nat → ℚ) (maxMB : ℚ) :
    ∀ (sess : List Nat) (labels : List (Nat × List (Nat × String)))
      (current : ℚ) (clock : Nat),
      sess.Nodup →
      (∀ i ∈ sess, (alistLookup labels i).isSome = true) →
      ∀ i ∈ (evictLoop mem maxMB sess labels current clock).1,
        (alistLookup (evictLoop mem maxMB sess labels current clock).2.1 i).isSome = true := by
  intro sess
  induction sess with
  | nil => intro labels current clock _ _ i hi; simp [evictLoop] at hi
  | cons lru rest ih =>
    intro labels current clock hnd hall i hi
    by_cases h : maxMB * (9/10) < current
    · simp only [evictLoop, h, if_true] at hi ⊢
      refine ih (alistErase labels lru) (mem clock) (clock + 1)
        (List.Nodup.of_cons hnd) ?_ i hi
      intro j hj
      have hne : j ≠ lru := by
        intro hEq
        subst hEq
        exact (List.nodup_cons.mp hnd).1 hj
      rw [alistLookup_erase_ne labels hne]
      exact hall j (List.mem_cons_of_mem lru hj)
    · simp only [evictLoop, h, if_false] at hi ⊢
      exact hall i hi

/-! ## Theorems: `check_memory_and_evict` properties -/

theorem check_sessions_suffix (mem : Nat → ℚ) (s : LRUState) (clock : Nat) :
    (check_memory_and_evict mem s clock).1.sessions <:+ s.sessions := by
  unfold check_memory_and_evict
  by_cases h : s.max_memory_mb < mem clock
  · simp only [h, if_true]
    exact evictLoop_suffix mem s.max_memory_mb s.sessions s.label_names
      (mem clock) (clock + 1)
  · simp only [h, if_false]
    exact List.suffix_refl _

theorem check_models (mem : Nat → ℚ) (s : LRUState) (clock : Nat) :
    (check_memory_and_evict mem s clock).1.models = s.models := by
  unfold check_memory_and_evict
  by_cases h : s.max_memory_mb < mem clock <;> simp [h]

theorem check_max (mem : Nat → ℚ) (s : LRUState) (clock : Nat) :
    (check_memory_and_evict mem s clock).1.max_memory_mb = s.max_memory_mb := by
  unfold check_memory_and_evict
  by_cases h : s.max_memory_mb < mem clock <;> simp [h]

theorem check_interval (mem : Nat → ℚ) (s : LRUState) (clock : Nat) :
    (check_memory_and_evict mem s clock).1.memory_check_interval =
      s.memory_check_interval := by
  unfold check_memory_and_evict
  by_cases h : s.max_memory_mb < mem clock <;> simp [h]

theorem check_rc (mem : Nat → ℚ) (s : LRUState) (clock : Nat) :
    (check_memory_and_evict mem s clock).1.request_count = s.request_count := by
  unfold check_memory_and_evict
  by_cases h : s.max_memory_mb < mem clock <;> simp [h]

theorem check_not_mem (mem : Nat → ℚ) (s : LRUState) (clock : Nat) (id : Nat)
    (h1 : id ∉ s.sessions) (h2 : alistLookup s.label_names id = none) :
    id ∉ (check_memory_and_evict mem s clock).1.sessions ∧
    alistLookup (check_memory_and_evict mem s clock).1.label_names id = none := by
  constructor
  · intro hmem
    exact h1 ((check_sessions_suffix mem s clock).subset hmem)
  · unfold check_memory_and_evict
    by_cases h : s.max_memory_mb < mem clock
    · simp only [h, if_true]
      exact evictLoop_labels_none mem s.max_memory_mb id s.sessions s.label_names
        (mem clock) (clock + 1) h2
    · simp only [h, if_false]
      exact h2

theorem check_preserves_inv (mem : Nat → ℚ) (s : LRUState) (clock : Nat)
    (hnd : s.sessions.Nodup) (hinv : sessionsHaveLabels s = true) :
    (check_memory_and_evict mem s clock).1.sessions.Nodup ∧
    sessionsHaveLabels (check_memory_and_evict mem s clock).1 = true := by
  refine ⟨hnd.sublist (check_sessions_suffix mem s clock).sublist, ?_⟩
  rw [sessionsHaveLabels] at hinv ⊢
  rw [List.all_eq_true] at hinv ⊢
  unfold check_memory_and_evict
  by_cases h : s.max_memory_mb < mem clock
  · simp only [h, if_true]
    intro i hi
    exact evictLoop_inv mem s.max_memory_mb s.sessions s.label_names
      (mem clock) (clock + 1) hnd (fun j hj => hinv j hj) i hi
  · simp only [h, if_false]
    exact hinv

/-- The `periodicCheck` state is the input state or the eviction-pass state. -/
theorem periodicCheck_state (mem : Nat → ℚ) (s : LRUState) (clock : Nat) :
    (periodicCheck mem s clock).1 = s ∨
    (periodicCheck mem s clock).1 = (check_memory_and_evict mem s clock).1 := by
  unfold periodicCheck
  by_cases h : (s.request_count % s.memory_check_interval == 0) = true <;> simp [h]

/-- The `watermarkCheck` state is the input state or the eviction-pass state. -/
theorem watermarkCheck_state (mem : Nat → ℚ) (s : LRUState) (clock : Nat) :
    (watermarkCheck mem s clock).1 = s ∨
    (watermarkCheck mem s clock).1 =
      (check_memory_and_evict mem s (clock + 1)).1 := by
  unfold watermarkCheck
  by_cases h : s.max_memory_mb * (8/10) < mem clock <;> simp [h]

/-! ## Theorems: claims C1-C3 -/

/-- **C1** (amended): after any eviction pass (`check_memory_and_evict`) that
terminates normally, the final sampled memory is at most the full configured
budget or the cache holds no entries.  (The pass only evicts while sampled
memory strictly exceeds the budget, stopping at ≤ 0.9 × budget; between
0.8 × budget and the budget it is a no-op, so the spec's low-watermark
postcondition does not hold.) -/
theorem eviction_pass_terminates_at_or_below_budget (mem : Nat → ℚ)
    (s : LRUState) (clock : Nat) (h : 0 ≤ s.max_memory_mb) :
    (check_memory_and_evict mem s clock).2.2 ≤ s.max_memory_mb ∨
    (check_memory_and_evict mem s clock).1.sessions = [] := by
  unfold check_memory_and_evict
  by_cases hm : s.max_memory_mb < mem clock
  · simp only [hm, if_true]
    rcases evictLoop_low_or_empty mem s.max_memory_mb s.sessions s.label_names
      (mem clock) (clock + 1) with he | hc
    · right
      simpa using he
    · left
      have h9 : s.max_memory_mb * (9/10) ≤ s.max_memory_mb :=
        mul_le_of_le_one_right h (by norm_num)
    
      simpa using le_trans hc h9
  · left
    simp only [hm, if_false]
    exact not_lt.mp hm

theorem eviction_pass_terminates_at_or_below_budget_witness :
    (check_memory_and_evict (fun _ => 95) oneEntryState 0).2.2 ≤
      oneEntryState.max_memory_mb ∨
    (check_memory_and_evict (fun _ => 95) oneEntryState 0).1.sessions = [] :=
  eviction_pass_terminates_at_or_below_budget (fun _ => 95) oneEntryState 0
    (by norm_num [oneEntryState])

/-- **C1** counterexample: a `get_session` miss sampling 95 MB against a
100 MB budget is above the high watermark (95 > 80 = 0.8 × budget), so the
eviction pass runs before instantiation; the pass terminates normally without
evicting anything (95 is not above the 100 MB budget), leaving the cache
nonempty and the final sampled memory 95 strictly above the low watermark
90 = 0.9 × budget — refuting "sampled memory ≤ low watermark or empty". -/
theorem eviction_pass_low_watermark_counterexample :
    oneEntryState.max_memory_mb * (8/10) < 95 ∧
    (check_memory_and_evict (fun _ => 95) oneEntryState 0).1.sessions = [7] ∧
    (check_memory_and_evict (fun _ => 95) oneEntryState 0).2.2 = 95 ∧
    ¬ ((check_memory_and_evict (fun _ => 95) oneEntryState 0).2.2 ≤
        oneEntryState.max_memory_mb * (9/10)) := by
  with_unfolding_all decide

/-- **C2**: the cache keeps no outstanding-use counter, so an eviction pass
removes the least-recently-used entry even while a consumer still uses its
handle: from `inUseState` (id 0 loaded and in use, 500 MB budget) with memory
sampling 600 MB, `check_memory_and_evict` deletes entry 0 and its label map. -/
theorem eviction_removes_in_use_lru :
    (check_memory_and_evict (fun _ => 600) inUseState 0).1.sessions = [] ∧
    (check_memory_and_evict (fun _ => 600) inUseState 0).1.label_names = [] := by
  with_unfolding_all decide

/-- **C3**: with two threads both running `get_session 0` on an empty cache,
the schedule T1-check, T2-check, T1-load, T2-load (both membership tests run
before either insertion, as nothing synchronizes them) performs two engine
instantiations for a single Unloaded-to-Loaded transition of id 0. -/
theorem concurrent_get_double_load :
    (runSchedule 0 [true, false, true, false]
      ⟨[], 0, ThreadPhase.start, ThreadPhase.start⟩).loads = 2 ∧
    (runSchedule 0 [true, false, true, false]
      ⟨[], 0, ThreadPhase.start, ThreadPhase.start⟩).sessions = [0] ∧
    (runSchedule 0 [true, false, true, false]
      ⟨[], 0, ThreadPhase.start, ThreadPhase.start⟩).t1 = ThreadPhase.done ∧
    (runSchedule 0 [true, false, true, false]
      ⟨[], 0, ThreadPhase.start, ThreadPhase.start⟩).t2 = ThreadPhase.done := by
  decide

/-! ## Theorems: claims C5, C8, C10 -/

theorem contains_eq_false_of_not_mem {l : List Nat} {a : Nat} (h : a ∉ l) :
    l.contains a = false := by simpa using h

theorem check_empty_state (mem : Nat → ℚ) (s : LRUState) (clock : Nat)
    (hs : s.sessions = []) (hl : s.label_names = []) :
    (check_memory_and_evict mem s clock).1 = s := by
  obtain ⟨se, la, mo, mx, ic, rc⟩ := s
  simp only at hs hl
  subst hs
  subst hl
  unfold check_memory_and_evict
  by_cases h : mx < mem clock <;> simp [h, evictLoop]

/-- **C5**: on a `get_session` miss with the catalog present, an id with no
descriptor raises `unknownId` (the `ValueError`) inside `add_session_label`
and a failing engine instantiation raises `loadFailure`; `get_session`
catches either and returns `none`, and no partial entry is left: the id ends
up in neither the sessions map nor the label map. -/
theorem get_session_miss_failure_no_partial_entry (mem : Nat → ℚ)
    (loadOk : Nat → Bool) (model_id : Nat) (s : LRUState) (clock : Nat)
    (m : Models)
    (hmod : s.models = some m)
    (hsess : model_id ∉ s.sessions)
    (hlab : alistLookup s.label_names model_id = none)
    (hfail : alistLookup m.models (toString model_id) = none ∨
             loadOk model_id = false) :
    (alistLookup m.models (toString model_id) = none →
      add_session_label loadOk model_id m s = .error .unknownId) ∧
    (loadOk model_id = false →
      (alistLookup m.models (toString model_id)).isSome = true →
      add_session_label loadOk model_id m s = .error .loadFailure) ∧
    (get_session mem loadOk model_id s clock).1 = none ∧
    model_id ∉ (get_session mem loadOk model_id s clock).2.1.sessions ∧
    alistLookup (get_session mem loadOk model_id s clock).2.1.label_names
      model_id = none := by
  refine ⟨?_, ?_, ?_⟩
  · intro h
    simp [add_session_label, h]
  · intro hok hsome
    rcases Option.isSome_iff_exists.mp hsome with ⟨info, hinfo⟩
    simp [add_session_label, hinfo, hok]
  · -- the `get_session` path: bump, periodic check, miss, watermark check,
    -- failed lazy load
    have hs1m : ({ s with request_count := s.request_count + 1 } : LRUState).models
        = some m := hmod
    have hs1s : model_id ∉
        ({ s with request_count := s.request_count + 1 } : LRUState).sessions := hsess
    have hs1l : alistLookup
        ({ s with request_count := s.request_count + 1 } : LRUState).label_names
        model_id = none := hlab
    -- facts about the post-periodic-check state
    have hpfacts :
        (periodicCheck mem { s with request_count := s.request_count + 1 } clock).1.models = some m ∧
        model_id ∉ (periodicCheck mem { s with request_count := s.request_count + 1 } clock).1.sessions ∧
        alistLookup (periodicCheck mem { s with request_count := s.request_count + 1 } clock).1.label_names model_id = none := by
      rcases periodicCheck_state mem { s with request_count := s.request_count + 1 } clock with hp | hp
      · rw [hp]
        exact ⟨hs1m, hs1s, hs1l⟩
      · rw [hp]
        rcases check_not_mem mem { s with request_count := s.request_count + 1 } clock model_id hs1s hs1l with ⟨a, b⟩
        exact ⟨(check_models _ _ _).trans hs1m, a, b⟩
    obtain ⟨hpm, hpn, hpl⟩ := hpfacts
    -- facts about the post-watermark-check state
    have hwfacts :
        (watermarkCheck mem (periodicCheck mem { s with request_count := s.request_count + 1 } clock).1 (periodicCheck mem { s with request_count := s.request_count + 1 } clock).2).1.models = some m ∧
        model_id ∉ (watermarkCheck mem (periodicCheck mem { s with request_count := s.request_count + 1 } clock).1 (periodicCheck mem { s with request_count := s.request_count + 1 } clock).2).1.sessions ∧
        alistLookup (watermarkCheck mem (periodicCheck mem { s with request_count := s.request_count + 1 } clock).1 (periodicCheck mem { s with request_count := s.request_count + 1 } clock).2).1.label_names model_id = none := by
      rcases watermarkCheck_state mem (periodicCheck mem { s with request_count := s.request_count + 1 } clock).1 (periodicCheck mem { s with request_count := s.request_count + 1 } clock).2 with hw | hw
      · rw [hw]
        exact ⟨hpm, hpn, hpl⟩
      · rw [hw]
        rcases check_not_mem mem (periodicCheck mem { s with request_count := s.request_count + 1 } clock).1 _ model_id hpn hpl with ⟨a, b⟩
        exact ⟨(check_models _ _ _).trans hpm, a, b⟩
    obtain ⟨hwm, hwn, hwl⟩ := hwfacts
    have hmain : get_session mem loadOk model_id s clock =
        (none,
         (watermarkCheck mem (periodicCheck mem { s with request_count := s.request_count + 1 } clock).1 (periodicCheck mem { s with request_count := s.request_count + 1 } clock).2).1,
         (watermarkCheck mem (periodicCheck mem { s with request_count := s.request_count + 1 } clock).1 (periodicCheck mem { s with request_count := s.request_count + 1 } clock).2).2) := by
      simp only [get_session]
      rw [contains_eq_false_of_not_mem hpn]
      simp only [Bool.false_eq_true, if_false]
      rw [hwm]
      rcases hfail with hnone | hok
      · simp [add_session_label, hnone]
      · cases hlook : alistLookup m.models (toString model_id) with
        | none => simp [add_session_label, hlook]
        | some info => simp [add_session_label, hlook, hok]
    rw [hmain]
    exact ⟨rfl, hwn, hwl⟩

theorem get_session_miss_failure_no_partial_entry_witness :
    (alistLookup twoModels.models (toString (0 : Nat)) = none →
      add_session_label (fun _ => false) 0 twoModels
        (initialize_sessions twoModels (initLRU 100 10)) = .error .unknownId) ∧
    ((fun _ => false : Nat → Bool) 0 = false →
      (alistLookup twoModels.models (toString (0 : Nat))).isSome = true →
      add_session_label (fun _ => false) 0 twoModels
        (initialize_sessions twoModels (initLRU 100 10)) = .error .loadFailure) ∧
    (get_session (fun _ => 0) (fun _ => false) 0
      (initialize_sessions twoModels (initLRU 100 10)) 0).1 = none ∧
    0 ∉ (get_session (fun _ => 0) (fun _ => false) 0
      (initialize_sessions twoModels (initLRU 100 10)) 0).2.1.sessions ∧
    alistLookup (get_session (fun _ => 0) (fun _ => false) 0
      (initialize_sessions twoModels (initLRU 100 10)) 0).2.1.label_names 0 = none :=
  get_session_miss_failure_no_partial_entry (fun _ => 0) (fun _ => false) 0
    (initialize_sessions twoModels (initLRU 100 10)) 0 twoModels rfl
    (by simp [initialize_sessions, initLRU]) rfl (Or.inr rfl)

/-- **C8**: `get_cache_stats` is a pure read: the state comes back unchanged,
and a second consecutive call (with no intervening `get`/`release`) reports
the same `loaded_models` list and the same `request_count`. -/
theorem stats_pure_read (mem : Nat → ℚ) (s : LRUState) (clock : Nat) :
    (get_cache_stats mem s clock).2.1 = s ∧
    (get_cache_stats mem ((get_cache_stats mem s clock).2.1)
        ((get_cache_stats mem s clock).2.2)).1.loaded_models =
      (get_cache_stats mem s clock).1.loaded_models ∧
    (get_cache_stats mem ((get_cache_stats mem s clock).2.1)
        ((get_cache_stats mem s clock).2.2)).1.request_count =
      (get_cache_stats mem s clock).1.request_count :=
  ⟨rfl, rfl, rfl⟩

/-- **C10**: before `initialize_sessions` supplies the catalog (fresh state:
no models reference, empty cache), `get_session` returns `none` for every id
while still incrementing the request counter and adding nothing, and
`get_label_names` returns `none` and leaves the state untouched. -/
theorem pre_initialization_get_denies (mem : Nat → ℚ) (loadOk : Nat → Bool)
    (model_id : Nat) (s : LRUState) (clock : Nat)
    (hm : s.models = none) (hs : s.sessions = []) (hl : s.label_names = []) :
    (get_session mem loadOk model_id s clock).1 = none ∧
    (get_session mem loadOk model_id s clock).2.1.sessions = [] ∧
    (get_session mem loadOk model_id s clock).2.1.label_names = [] ∧
    (get_session mem loadOk model_id s clock).2.1.request_count =
      s.request_count + 1 ∧
    (get_label_names loadOk model_id s).1 = none ∧
    (get_label_names loadOk model_id s).2 = s := by
  obtain ⟨se, la, mo, mx, ic, rc⟩ := s
  simp only at hm hs hl
  subst hm
  subst hs
  subst hl
  have hp : (periodicCheck mem ⟨[], [], none, mx, ic, rc + 1⟩ clock).1 =
      (⟨[], [], none, mx, ic, rc + 1⟩ : LRUState) := by
    rcases periodicCheck_state mem ⟨[], [], none, mx, ic, rc + 1⟩ clock with h | h
    · exact h
    · exact h.trans (check_empty_state mem _ clock rfl rfl)
  have hw : (watermarkCheck mem (⟨[], [], none, mx, ic, rc + 1⟩ : LRUState)
      (periodicCheck mem ⟨[], [], none, mx, ic, rc + 1⟩ clock).2).1 =
      (⟨[], [], none, mx, ic, rc + 1⟩ : LRUState) := by
    rcases watermarkCheck_state mem ⟨[], [], none, mx, ic, rc + 1⟩
      (periodicCheck mem ⟨[], [], none, mx, ic, rc + 1⟩ clock).2 with h | h
    · exact h
    · exact h.trans (check_empty_state mem _ _ rfl rfl)
  have hmain : ∀ res : Option Nat × LRUState × Nat,
      res = get_session mem loadOk model_id ⟨[], [], none, mx, ic, rc⟩ clock →
      res.1 = none ∧ res.2.1 = (⟨[], [], none, mx, ic, rc + 1⟩ : LRUState) := by
    intro res hres
    simp only [get_session] at hres
    rw [hp] at hres
    simp only [List.contains_nil, Bool.false_eq_true, if_false] at hres
    rw [hw] at hres
    simp only at hres
    subst hres
    exact ⟨rfl, rfl⟩
  rcases hmain _ rfl with ⟨h1, h2⟩
  refine ⟨h1, ?_, ?_, ?_, ?_, ?_⟩
  · rw [h2]
  · rw [h2]
  · rw [h2]
  · simp [get_label_names, alistLookup]
  · simp [get_label_names, alistLookup]

theorem pre_initialization_get_denies_witness :
    (get_session (fun _ => 0) (fun _ => true) 3 (initLRU 100 10) 0).1 = none ∧
    (get_session (fun _ => 0) (fun _ => true) 3 (initLRU 100 10) 0).2.1.sessions = [] ∧
    (get_session (fun _ => 0) (fun _ => true) 3 (initLRU 100 10) 0).2.1.label_names = [] ∧
    (get_session (fun _ => 0) (fun _ => true) 3 (initLRU 100 10) 0).2.1.request_count =
      (initLRU 100 10).request_count + 1 ∧
    (get_label_names (fun _ => true) 3 (initLRU 100 10)).1 = none ∧
    (get_label_names (fun _ => true) 3 (initLRU 100 10)).2 = initLRU 100 10 :=
  pre_initialization_get_denies (fun _ => 0) (fun _ => true) 3 (initLRU 100 10) 0
    rfl rfl rfl

/-! ## Theorems: claim C6 -/

theorem periodicCheck_not_due (mem : Nat → ℚ) (s : LRUState) (clock : Nat)
    (h : (s.request_count % s.memory_check_interval == 0) = false) :
    periodicCheck mem s clock = (s, clock) := by
  simp [periodicCheck, h]

theorem watermarkCheck_below (mem : Nat → ℚ) (s : LRUState) (clock : Nat)
    (h : ¬ (s.max_memory_mb * (8/10) < mem clock)) :
    watermarkCheck mem s clock = (s, clock + 1) := by
  simp [watermarkCheck, h]

/-- Evaluation of a `get_session` cache hit when the periodic check is not
due: the entry moves to the most-recently-used end, no sample is consumed. -/
theorem get_session_hit (mem : Nat → ℚ) (loadOk : Nat → Bool) (id : Nat)
    (s : LRUState) (clock : Nat)
    (hper : ((s.request_count + 1) % s.memory_check_interval == 0) = false)
    (hhit : s.sessions.contains id = true) :
    get_session mem loadOk id s clock =
      (some id,
       { s with request_count := s.request_count + 1,
                sessions := moveToEnd id s.sessions }, clock) := by
  simp only [get_session]
  rw [periodicCheck_not_due mem _ clock hper]
  simp [hhit]
  intro h
  exact absurd (by simpa using hhit) h

/-- Evaluation of a `get_session` miss that loads successfully, with the
periodic check not due and memory below the high watermark. -/
theorem get_session_miss_load_ok (mem : Nat → ℚ) (loadOk : Nat → Bool)
    (id : Nat) (s : LRUState) (clock : Nat) (m : Models) (info : ModelInfo)
    (hper : ((s.request_count + 1) % s.memory_check_interval == 0) = false)
    (hmiss : s.sessions.contains id = false)
    (hmem : ¬ (s.max_memory_mb * (8/10) < mem clock))
    (hmod : s.models = some m)
    (hinfo : alistLookup m.models (toString id) = some info)
    (hok : loadOk id = true) :
    get_session mem loadOk id s clock =
      (some id,
       { s with request_count := s.request_count + 1,
                sessions := s.sessions ++ [id],
                label_names := alistSet s.label_names id info.names },
       clock + 1) := by
  simp only [get_session]
  rw [periodicCheck_not_due mem { s with request_count := s.request_count + 1 }
    clock hper]
  simp only [hmiss, Bool.false_eq_true, if_false]
  rw [watermarkCheck_below mem { s with request_count := s.request_count + 1 }
    clock hmem]
  simp only [hmod, add_session_label, hinfo, hok, hmiss, Bool.false_eq_true,
    if_false, if_true]
  have hc : (s.sessions ++ [id]).contains id = true := by simp
  simp [hc]

/-- Unfolding of one `getSeq` step with the pair projections exposed. -/
theorem getSeq_cons (mem : Nat → ℚ) (loadOk : Nat → Bool) (id : Nat)
    (ids : List Nat) (s : LRUState) (clock : Nat) :
    getSeq mem loadOk (id :: ids) s clock =
      getSeq mem loadOk ids (get_session mem loadOk id s clock).2.1
        (get_session mem loadOk id s clock).2.2 := rfl

/-- **C6**: from an empty cache (ids 0 and 1 both resolving and loading, no
eviction since memory samples 0 against a 4096 MB budget), the sequence
`get_session 0`, `get_session 1`, `get_session 0` leaves the stats
`loaded_models` list equal to `[1, 0]`: head = least recently used, tail =
most recently used. -/
theorem recency_after_get0_get1_get0 (m : Models) (i0 i1 : ModelInfo)
    (h0 : alistLookup m.models (toString (0 : Nat)) = some i0)
    (h1 : alistLookup m.models (toString (1 : Nat)) = some i1) :
    (get_cache_stats (fun _ => 0)
      (getSeq (fun _ => 0) (fun _ => true) [0, 1, 0]
        (initialize_sessions m (initLRU 4096 10)) 0).1
      (getSeq (fun _ => 0) (fun _ => true) [0, 1, 0]
        (initialize_sessions m (initLRU 4096 10)) 0).2).1.loaded_models = [1, 0] := by
  have e1 : get_session (fun _ => 0) (fun _ => true) 0
      (initialize_sessions m (initLRU 4096 10)) 0 =
      (some 0, (⟨[0], [(0, i0.names)], some m, 4096, 10, 1⟩ : LRUState), 1) :=
    get_session_miss_load_ok (fun _ => 0) (fun _ => true) 0
      (initialize_sessions m (initLRU 4096 10)) 0 m i0 rfl rfl
      (by norm_num [initialize_sessions, initLRU]) rfl h0 rfl
  have e2 : get_session (fun _ => 0) (fun _ => true) 1
      (⟨[0], [(0, i0.names)], some m, 4096, 10, 1⟩ : LRUState) 1 =
      (some 1,
       (⟨[0, 1], [(0, i0.names), (1, i1.names)], some m, 4096, 10, 2⟩ : LRUState),
       2) :=
    get_session_miss_load_ok (fun _ => 0) (fun _ => true) 1
      ⟨[0], [(0, i0.names)], some m, 4096, 10, 1⟩ 1 m i1 rfl rfl
      (by norm_num) rfl h1 rfl
  have e3 : get_session (fun _ => 0) (fun _ => true) 0
      (⟨[0, 1], [(0, i0.names), (1, i1.names)], some m, 4096, 10, 2⟩ : LRUState) 2 =
      (some 0,
       (⟨[1, 0], [(0, i0.names), (1, i1.names)], some m, 4096, 10, 3⟩ : LRUState),
       2) :=
    get_session_hit (fun _ => 0) (fun _ => true) 0
      ⟨[0, 1], [(0, i0.names), (1, i1.names)], some m, 4096, 10, 2⟩ 2 rfl rfl
  have hseq : getSeq (fun _ => 0) (fun _ => true) [0, 1, 0]
      (initialize_sessions m (initLRU 4096 10)) 0 =
      ((⟨[1, 0], [(0, i0.names), (1, i1.names)], some m, 4096, 10, 3⟩ : LRUState),
       2) := by
    rw [getSeq_cons, e1]
    simp only []
    rw [getSeq_cons, e2]
    simp only []
    rw [getSeq_cons, e3]
    simp only []
    rw [getSeq]
  rw [hseq]
  rfl

theorem recency_after_get0_get1_get0_witness :
    (get_cache_stats (fun _ => 0)
      (getSeq (fun _ => 0) (fun _ => true) [0, 1, 0]
        (initialize_sessions twoModels (initLRU 4096 10)) 0).1
      (getSeq (fun _ => 0) (fun _ => true) [0, 1, 0]
        (initialize_sessions twoModels (initLRU 4096 10)) 0).2).1.loaded_models = [1, 0] :=
  recency_after_get0_get1_get0 twoModels infoA infoB (by decide) (by decide)

/-! ## Theorems: claim C9 -/

theorem nodup_append_singleton {l : List Nat} {a : Nat} (hnd : l.Nodup)
    (ha : a ∉ l) : (l ++ [a]).Nodup := by
  refine List.Nodup.append hnd (List.nodup_singleton a) ?_
  intro x hx hx2
  simp only [List.mem_singleton] at hx2
  subst hx2
  exact ha hx

theorem moveToEnd_nodup {l : List Nat} (a : Nat) (hnd : l.Nodup) :
    (moveToEnd a l).Nodup := by
  refine nodup_append_singleton (hnd.erase a) ?_
  intro hmem
  exact absurd ((hnd.mem_erase_iff).mp hmem).1 (by simp)

theorem moveToEnd_state_inv (t : LRUState) (id : Nat) (hnd : t.sessions.Nodup)
    (hinv : sessionsHaveLabels t = true) (hmem : id ∈ t.sessions) :
    sessionsHaveLabels { t with sessions := moveToEnd id t.sessions } = true ∧
    (moveToEnd id t.sessions).Nodup := by
  refine ⟨?_, moveToEnd_nodup id hnd⟩
  rw [sessionsHaveLabels, List.all_eq_true] at hinv ⊢
  intro j hj
  simp only [moveToEnd, List.mem_append, List.mem_singleton] at hj
  rcases hj with hj | hj
  · exact hinv j (List.erase_subset _ _ hj)
  · subst hj
    exact hinv j hmem

theorem addSessionLabel_inv (loadOk : Nat → Bool) (id : Nat) (m : Models)
    (s s' : LRUState) (hnd : s.sessions.Nodup)
    (hinv : sessionsHaveLabels s = true)
    (hok : add_session_label loadOk id m s = .ok s') :
    sessionsHaveLabels s' = true ∧ s'.sessions.Nodup := by
  rw [sessionsHaveLabels, List.all_eq_true] at hinv
  unfold add_session_label at hok
  cases hlook : alistLookup m.models (toString id) with
  | none => rw [hlook] at hok; exact absurd hok (by simp)
  | some info =>
    rw [hlook] at hok
    simp only [] at hok
    by_cases hl : loadOk id = true
    · rw [if_pos hl] at hok
      have hs' : s' =
          { s with
            sessions :=
              if s.sessions.contains id then s.sessions else s.sessions ++ [id]
            label_names := alistSet s.label_names id info.names } := by
        cases hok
        rfl
      subst hs'
      have hLmem : ∀ j, j ∈ (if s.sessions.contains id = true then s.sessions
          else s.sessions ++ [id]) → j ∈ s.sessions ∨ j = id := by
        intro j hj
        by_cases hc : s.sessions.contains id = true
        · rw [if_pos hc] at hj
          exact Or.inl hj
        · rw [if_neg hc] at hj
          simp only [List.mem_append, List.mem_singleton] at hj
          exact hj
      have hLnd : (if s.sessions.contains id = true then s.sessions
          else s.sessions ++ [id]).Nodup := by
        by_cases hc : s.sessions.contains id = true
        · rw [if_pos hc]
          exact hnd
        · rw [if_neg hc]
          refine nodup_append_singleton hnd ?_
          intro hm
          exact hc (by simpa using hm)
      constructor
      · rw [sessionsHaveLabels, List.all_eq_true]
        intro j hj
        show (alistLookup (alistSet s.label_names id info.names) j).isSome = true
        by_cases hji : j = id
        · subst hji
          simp [alistLookup_set_self]
        · rw [alistLookup_set_ne _ info.names hji]
          rcases hLmem j hj with hj' | hj'
          · exact hinv j hj'
          · exact absurd hj' hji
      · exact hLnd
    · rw [if_neg hl] at hok
      exact absurd hok (by simp)

theorem periodicCheck_inv (mem : Nat → ℚ) (s : LRUState) (clock : Nat)
    (hnd : s.sessions.Nodup) (hinv : sessionsHaveLabels s = true) :
    sessionsHaveLabels (periodicCheck mem s clock).1 = true ∧
    (periodicCheck mem s clock).1.sessions.Nodup := by
  rcases periodicCheck_state mem s clock with hp | hp
  · rw [hp]; exact ⟨hinv, hnd⟩
  · rw [hp]
    have := check_preserves_inv mem s clock hnd hinv
    exact ⟨this.2, this.1⟩

theorem watermarkCheck_inv (mem : Nat → ℚ) (s : LRUState) (clock : Nat)
    (hnd : s.sessions.Nodup) (hinv : sessionsHaveLabels s = true) :
    sessionsHaveLabels (watermarkCheck mem s clock).1 = true ∧
    (watermarkCheck mem s clock).1.sessions.Nodup := by
  rcases watermarkCheck_state mem s clock with hw | hw
  · rw [hw]; exact ⟨hinv, hnd⟩
  · rw [hw]
    have := check_preserves_inv mem s (clock + 1) hnd hinv
    exact ⟨this.2, this.1⟩

theorem get_session_inv (mem : Nat → ℚ) (loadOk : Nat → Bool) (id : Nat)
    (s : LRUState) (clock : Nat) (hnd : s.sessions.Nodup)
    (hinv : sessionsHaveLabels s = true) :
    sessionsHaveLabels (get_session mem loadOk id s clock).2.1 = true ∧
    (get_session mem loadOk id s clock).2.1.sessions.Nodup := by
  have hp := periodicCheck_inv mem { s with request_count := s.request_count + 1 }
    clock hnd hinv
  simp only [get_session]
  by_cases hc : (periodicCheck mem { s with request_count := s.request_count + 1 }
      clock).1.sessions.contains id = true
  · rw [if_pos hc]
    have hm : id ∈ (periodicCheck mem
        { s with request_count := s.request_count + 1 } clock).1.sessions := by
      simpa using hc
    have h := moveToEnd_state_inv _ id hp.2 hp.1 hm
    exact ⟨h.1, h.2⟩
  · rw [if_neg hc]
    have hw := watermarkCheck_inv mem
      (periodicCheck mem { s with request_count := s.request_count + 1 } clock).1
      (periodicCheck mem { s with request_count := s.request_count + 1 } clock).2
      hp.2 hp.1
    cases hmw : (watermarkCheck mem
        (periodicCheck mem { s with request_count := s.request_count + 1 } clock).1
        (periodicCheck mem { s with request_count := s.request_count + 1 } clock).2).1.models with
    | none =>
      simp only [hmw]
      exact ⟨hw.1, hw.2⟩
    | some mm =>
      simp only [hmw]
      cases hadd : add_session_label loadOk id mm (watermarkCheck mem
          (periodicCheck mem { s with request_count := s.request_count + 1 } clock).1
          (periodicCheck mem { s with request_count := s.request_count + 1 } clock).2).1 with
      | ok s' =>
        simp only [hadd]
        have h := addSessionLabel_inv loadOk id mm _ s' hw.2 hw.1 hadd
        exact ⟨h.1, h.2⟩
      | error e =>
        simp only [hadd]
        exact ⟨hw.1, hw.2⟩

theorem get_label_names_inv (loadOk : Nat → Bool) (id : Nat) (s : LRUState)
    (hnd : s.sessions.Nodup) (hinv : sessionsHaveLabels s = true) :
    sessionsHaveLabels (get_label_names loadOk id s).2 = true ∧
    (get_label_names loadOk id s).2.sessions.Nodup := by
  cases hl : alistLookup s.label_names id with
  | some labels =>
    simp only [get_label_names, hl]
    by_cases hc : s.sessions.contains id = true
    · rw [if_pos hc]
      have hm : id ∈ s.sessions := by simpa using hc
      have h := moveToEnd_state_inv s id hnd hinv hm
      exact ⟨h.1, h.2⟩
    · rw [if_neg hc]
      exact ⟨hinv, hnd⟩
  | none =>
    cases hmm : s.models with
    | none =>
      simp only [get_label_names, hl, hmm]
      exact ⟨hinv, hnd⟩
    | some mm =>
      cases hadd : add_session_label loadOk id mm s with
      | ok s' =>
        simp only [get_label_names, hl, hmm, hadd]
        have h := addSessionLabel_inv loadOk id mm s s' hnd hinv hadd
        exact ⟨h.1, h.2⟩
      | error e =>
        simp only [get_label_names, hl, hmm, hadd]
        exact ⟨hinv, hnd⟩

/-- **C9**: every cache operation preserves the invariant that each id with a
loaded session also has its label map (given the OrderedDict fact that
session keys are distinct): `__init__` establishes it and
`check_memory_and_evict`, `add_session_label`, `get_session` and
`get_label_names` all preserve it, together with key distinctness. -/
theorem sessions_have_labels_invariant :
    (∀ (mx : ℚ) (ic : Nat),
      sessionsHaveLabels (initLRU mx ic) = true ∧ (initLRU mx ic).sessions.Nodup) ∧
    (∀ (mem : Nat → ℚ) (s : LRUState) (clock : Nat),
      s.sessions.Nodup → sessionsHaveLabels s = true →
      sessionsHaveLabels (check_memory_and_evict mem s clock).1 = true ∧
      (check_memory_and_evict mem s clock).1.sessions.Nodup) ∧
    (∀ (loadOk : Nat → Bool) (id : Nat) (m : Models) (s s' : LRUState),
      s.sessions.Nodup → sessionsHaveLabels s = true →
      add_session_label loadOk id m s = .ok s' →
      sessionsHaveLabels s' = true ∧ s'.sessions.Nodup) ∧
    (∀ (mem : Nat → ℚ) (loadOk : Nat → Bool) (id : Nat) (s : LRUState) (clock : Nat),
      s.sessions.Nodup → sessionsHaveLabels s = true →
      sessionsHaveLabels (get_session mem loadOk id s clock).2.1 = true ∧
      (get_session mem loadOk id s clock).2.1.sessions.Nodup) ∧
    (∀ (loadOk : Nat → Bool) (id : Nat) (s : LRUState),
      s.sessions.Nodup → sessionsHaveLabels s = true →
      sessionsHaveLabels (get_label_names loadOk id s).2 = true ∧
      (get_label_names loadOk id s).2.sessions.Nodup) := by
  refine ⟨fun mx ic => ⟨rfl, List.nodup_nil⟩, ?_, ?_, ?_, ?_⟩
  · intro mem s clock hnd hinv
    have h := check_preserves_inv mem s clock hnd hinv
    exact ⟨h.2, h.1⟩
  · intro loadOk id m s s' hnd hinv hok
    exact addSessionLabel_inv loadOk id m s s' hnd hinv hok
  · intro mem loadOk id s clock hnd hinv
    exact get_session_inv mem loadOk id s clock hnd hinv
  · intro loadOk id s hnd hinv
    exact get_label_names_inv loadOk id s hnd hinv

theorem sessions_have_labels_invariant_witness :
    sessionsHaveLabels (get_session (fun _ => 0) (fun _ => true) 0
      (initialize_sessions twoModels (initLRU 4096 10)) 0).2.1 = true ∧
    (get_session (fun _ => 0) (fun _ => true) 0
      (initialize_sessions twoModels (initLRU 4096 10)) 0).2.1.sessions.Nodup :=
  sessions_have_labels_invariant.2.2.2.1 (fun _ => 0) (fun _ => true) 0
    (initialize_sessions twoModels (initLRU 4096 10)) 0
    (by simp [initialize_sessions, initLRU]) rfl
